import Mathlib

/-!
Verification of the rendering pipeline and temporal-accumulation engine of the
aparimeya.art WebGPU ray tracer.

The development shallowly embeds the relevant program parts:
* the display/blend fragment stage (fragmentMain of the accumulation display
  shader), with shader floats modelled as exact rationals;
* the camera model (src/lib/engine/camera/camera.ts), with coordinates
  modelled as real numbers;
* the orchestrator state machine (src/lib/engine/raytracer.ts): resource
  lifecycle, accumulation reset, frame-count uniforms, and the per-frame
  dispatch protocol, with texture contents abstracted as texel maps;
* the compute dispatch geometry (render workgroup counts, computeMain
  bounds guard).

Definitions come first, then helper lemmas, then one theorem per claim.
-/

namespace RT

/-! ## Display/blend stage

Embedding of the temporal-accumulation fragment shader (fragmentMain).
Colors are handled componentwise; a single channel is a rational number.
The WGSL select(f, t, cond) builtin returns t when cond holds, else f. -/

/-- WGSL select(f, t, cond): returns t when cond is true, f otherwise. -/
def wgslSelect {α : Type} (f t : α) (cond : Bool) : α :=
  if cond then t else f

/-- One channel of the blend rule of fragmentMain, translated line by line:
shouldAccumulate = frame_count >= 5.0;
weight = select(0.0, 1.0 / (frame_count + 1.0), shouldAccumulate);
accumulatedColor = select(currentFrame,
  previousFrame * (1.0 - weight) + currentFrame * weight, shouldAccumulate). -/
def fragmentBlend (previous current frameCount : ℚ) : ℚ :=
  let shouldAccumulate : Bool := decide (5 ≤ frameCount)
  let weight := wgslSelect 0 (1 / (frameCount + 1)) shouldAccumulate
  wgslSelect current (previous * (1 - weight) + current * weight) shouldAccumulate

/-- The blend rule as the specification words it: if the frame index is
below 5 the output is the current sample unmodified, otherwise the output is
previous * (1 - w) + current * w with w = 1 / (frameIndex + 1). -/
def blendSpec (previous current frameCount : ℚ) : ℚ :=
  if frameCount < 5 then current
  else previous * (1 - 1 / (frameCount + 1)) + current * (1 / (frameCount + 1))

/-- Accumulated per-pixel channel value after feeding frames 0 .. N-1 of the
sample sequence s through the blend, starting from a reset state: the
accumulation is cleared and frame k is blended with frame counter k, the
output becoming the next accumulation value (the snapshot-copy pass). -/
def accAfter (s : ℕ → ℚ) : ℕ → ℚ
  | 0 => 0
  | n + 1 => fragmentBlend (accAfter s n) (s n) n

/-- The concrete sample sequence 6, 0, 0, 0, ... used as counterexample. -/
def cexSamples : ℕ → ℚ :=
  fun n => if n = 0 then 6 else 0

/-! ## Vector3 (src/lib/engine/math/vector.ts)

Value-type 3D vector over the reals; every operation returns a new value. -/

noncomputable section

/-- Vector3: an (x, y, z) triple of reals. -/
structure Vec3 where
  x : ℝ
  y : ℝ
  z : ℝ

/-- Vector3.add. -/
def Vec3.add (a b : Vec3) : Vec3 :=
  ⟨a.x + b.x, a.y + b.y, a.z + b.z⟩

/-- Vector3.sub. -/
def Vec3.sub (a b : Vec3) : Vec3 :=
  ⟨a.x - b.x, a.y - b.y, a.z - b.z⟩

/-- Vector3.mul (scalar multiplication). -/
def Vec3.mul (a : Vec3) (s : ℝ) : Vec3 :=
  ⟨a.x * s, a.y * s, a.z * s⟩

/-- Vector3.div (scalar division). -/
def Vec3.div (a : Vec3) (s : ℝ) : Vec3 :=
  ⟨a.x / s, a.y / s, a.z / s⟩

/-- Vector3.dot. -/
def Vec3.dot (a b : Vec3) : ℝ :=
  a.x * b.x + a.y * b.y + a.z * b.z

/-- Vector3.cross. -/
def Vec3.cross (a b : Vec3) : Vec3 :=
  ⟨a.y * b.z - a.z * b.y, a.z * b.x - a.x * b.z, a.x * b.y - a.y * b.x⟩

/-- Vector3.length: sqrt(x*x + y*y + z*z). -/
noncomputable def Vec3.length (a : Vec3) : ℝ :=
  Real.sqrt (a.x * a.x + a.y * a.y + a.z * a.z)

open Classical in
/-- Vector3.normalize: returns the zero vector when the length is 0,
otherwise divides by the length. -/
noncomputable def Vec3.normalize (a : Vec3) : Vec3 :=
  if a.length = 0 then ⟨0, 0, 0⟩ else a.div a.length

/-! ## Camera (src/lib/engine/camera/camera.ts) -/

/-- JavaScript Math.atan2(y, x), with the JS convention atan2(0, 0) = 0. -/
noncomputable def atan2 (y x : ℝ) : ℝ :=
  if 0 < x then Real.arctan (y / x)
  else if x < 0 then
    (if 0 ≤ y then Real.arctan (y / x) + Real.pi else Real.arctan (y / x) - Real.pi)
  else if 0 < y then Real.pi / 2
  else if y < 0 then -(Real.pi / 2)
  else 0

/-- A 4x4 matrix stored as the flat 16-entry array the camera code builds
(m0 is index 0, m15 is index 15). -/
structure Mat16 where
  m0 : ℝ
  m1 : ℝ
  m2 : ℝ
  m3 : ℝ
  m4 : ℝ
  m5 : ℝ
  m6 : ℝ
  m7 : ℝ
  m8 : ℝ
  m9 : ℝ
  m10 : ℝ
  m11 : ℝ
  m12 : ℝ
  m13 : ℝ
  m14 : ℝ
  m15 : ℝ

/-- The all-zero matrix, standing for the initially empty cached arrays.
It is never observed: the constructor runs updateMatrices with the dirty
flag set before any getter can read the cache. -/
def mat16zero : Mat16 :=
  ⟨0, 0, 0, 0, 0, 0, 0, 0, 0, 0, 0, 0, 0, 0, 0, 0⟩

/-- Camera state: configuration fields, Euler angles, and the cached
matrices with their dirty flag (canvas dimensions are omitted; no claim
mentions them). -/
structure Camera where
  position : Vec3
  target : Vec3
  up : Vec3
  fov : ℝ
  aspect : ℝ
  near : ℝ
  far : ℝ
  pitch : ℝ
  yaw : ℝ
  viewMatrix : Mat16
  projectionMatrix : Mat16
  matricesDirty : Bool

/-- The direction vector updateTargetFromAngles computes from the current
angles: (sin yaw * cos pitch, -sin pitch, cos yaw * cos pitch). -/
noncomputable def dirFromAngles (pitch yaw : ℝ) : Vec3 :=
  ⟨Real.sin yaw * Real.cos pitch, -Real.sin pitch, Real.cos yaw * Real.cos pitch⟩

/-- updateTargetFromAngles: target := position + direction * 5
(5 is the fixed look distance). -/
noncomputable def Camera.updateTargetFromAngles (c : Camera) : Camera :=
  { c with target := c.position.add ((dirFromAngles c.pitch c.yaw).mul 5) }

/-- calculateViewMatrix: forward = normalize(target - position),
right = normalize(cross(forward, up)), upBasis = cross(right, forward), packed
into the flat array the source returns. -/
noncomputable def Camera.calculateViewMatrix (c : Camera) : Mat16 :=
  let forward := (c.target.sub c.position).normalize
  let right := (forward.cross c.up).normalize
  let up := right.cross forward
  ⟨right.x, up.x, -forward.x, 0,
   right.y, up.y, -forward.y, 0,
   right.z, up.z, -forward.z, 0,
   -(right.dot c.position), -(up.dot c.position), forward.dot c.position, 1⟩

/-- calculateProjectionMatrix: the perspective projection the source builds
from fov, aspect, near and far. -/
noncomputable def Camera.calculateProjectionMatrix (c : Camera) : Mat16 :=
  let f := 1 / Real.tan (c.fov / 2)
  let rangeInv := 1 / (c.near - c.far)
  ⟨f / c.aspect, 0, 0, 0,
   0, f, 0, 0,
   0, 0, (c.near + c.far) * rangeInv, -1,
   0, 0, c.near * c.far * rangeInv * 2, 0⟩

/-- updateMatrices: recompute and cache both matrices when dirty,
otherwise leave the cache untouched. -/
noncomputable def Camera.updateMatrices (c : Camera) : Camera :=
  if c.matricesDirty then
    { c with viewMatrix := c.calculateViewMatrix,
             projectionMatrix := c.calculateProjectionMatrix,
             matricesDirty := false }
  else c

/-- calculateInitialAngles: back-compute pitch and yaw from the initial
position and target via atan2. -/
noncomputable def Camera.calculateInitialAngles (c : Camera) : Camera :=
  let direction := (c.target.sub c.position).normalize
  let yaw := atan2 direction.x direction.z
  let horizontalDistance := Real.sqrt (direction.x * direction.x + direction.z * direction.z)
  let pitch := atan2 (-direction.y) horizontalDistance
  { c with yaw := yaw, pitch := pitch }

/-- The camera constructor: store the configuration, back-compute the
initial angles, then refresh the matrices (dirty starts true). -/
noncomputable def mkCamera (position target up : Vec3) (fov aspect near far : ℝ) : Camera :=
  Camera.updateMatrices (Camera.calculateInitialAngles
    { position := position, target := target, up := up,
      fov := fov, aspect := aspect, near := near, far := far,
      pitch := 0, yaw := 0,
      viewMatrix := mat16zero, projectionMatrix := mat16zero,
      matricesDirty := true })

/-- getForward: the negative view-space Z axis read from the cached view
matrix (indices 2, 6, 10). -/
def Camera.getForward (c : Camera) : Vec3 :=
  ⟨-c.viewMatrix.m2, -c.viewMatrix.m6, -c.viewMatrix.m10⟩

/-- getRight: the view-space X axis read from the cached view matrix
(indices 0, 4, 8). -/
def Camera.getRight (c : Camera) : Vec3 :=
  ⟨c.viewMatrix.m0, c.viewMatrix.m4, c.viewMatrix.m8⟩

/-- getUpBasis: the view-space Y axis read from the cached view matrix
(indices 1, 5, 9). -/
def Camera.getUpBasis (c : Camera) : Vec3 :=
  ⟨c.viewMatrix.m1, c.viewMatrix.m5, c.viewMatrix.m9⟩

/-- moveTo: set position, re-derive target from the current angles, mark
the matrices dirty. -/
noncomputable def Camera.moveTo (c : Camera) (p : Vec3) : Camera :=
  { ({ c with position := p } : Camera).updateTargetFromAngles with matricesDirty := true }

/-- rotateX: add the delta to pitch, clamp pitch to
[-pi/2 + 0.01, pi/2 - 0.01], re-derive target, mark dirty. -/
noncomputable def Camera.rotateX (c : Camera) (angle : ℝ) : Camera :=
  let pitch := c.pitch + angle
  let clamped := max (-(Real.pi / 2) + 1 / 100) (min (Real.pi / 2 - 1 / 100) pitch)
  { ({ c with pitch := clamped } : Camera).updateTargetFromAngles with matricesDirty := true }

/-- rotateY: add the delta to yaw (no clamping), re-derive target, mark
dirty. -/
noncomputable def Camera.rotateY (c : Camera) (angle : ℝ) : Camera :=
  { ({ c with yaw := c.yaw + angle } : Camera).updateTargetFromAngles with matricesDirty := true }

/-- resetRotation: pitch = 0, yaw = 0, re-derive target, mark dirty. -/
noncomputable def Camera.resetRotation (c : Camera) : Camera :=
  { ({ c with pitch := 0, yaw := 0 } : Camera).updateTargetFromAngles with matricesDirty := true }

/-- setFOV: update the scalar and mark the matrices dirty. -/
def Camera.setFOV (c : Camera) (fov : ℝ) : Camera :=
  { c with fov := fov, matricesDirty := true }

/-- setAspect: update the scalar and mark the matrices dirty. -/
def Camera.setAspect (c : Camera) (aspect : ℝ) : Camera :=
  { c with aspect := aspect, matricesDirty := true }

/-- The record getShaderData returns (canvas dimensions omitted). -/
structure ShaderData where
  position : Vec3
  forward : Vec3
  up : Vec3
  right : Vec3
  fov : ℝ
  aspect : ℝ

/-- getShaderData: force a matrix refresh, then read position, the three
basis vectors, fov and aspect. -/
noncomputable def Camera.getShaderData (c : Camera) : ShaderData :=
  let c' := c.updateMatrices
  { position := c'.position,
    forward := c'.getForward,
    up := c'.getUpBasis,
    right := c'.getRight,
    fov := c'.fov,
    aspect := c'.aspect }

/-- A single rotation request: a pitch delta (rotateX) or a yaw delta
(rotateY). -/
inductive RotOp where
  | rx : ℝ → RotOp
  | ry : ℝ → RotOp

/-- Apply one rotation request to the camera. -/
noncomputable def applyRot (c : Camera) : RotOp → Camera
  | .rx a => c.rotateX a
  | .ry a => c.rotateY a

/-- Apply a sequence of rotation requests in order. -/
noncomputable def applyRots (c : Camera) : List RotOp → Camera
  | [] => c
  | op :: ops => applyRots (applyRot c op) ops

/-- A concrete camera state with pitch 0 used by witnesses. -/
noncomputable def camWitness : Camera :=
  { position := ⟨0, 0, -5⟩, target := ⟨0, 0, 0⟩, up := ⟨0, 1, 0⟩,
    fov := 1, aspect := 1, near := 1 / 10, far := 1000,
    pitch := 0, yaw := 0,
    viewMatrix := mat16zero, projectionMatrix := mat16zero,
    matricesDirty := true }

/-- A camera constructed looking straight up: its target sits directly
above its position, so the back-computed pitch is exactly -pi/2. -/
noncomputable def camStraightUp : Camera :=
  mkCamera ⟨0, 0, 0⟩ ⟨0, 5, 0⟩ ⟨0, 1, 0⟩ 1 1 (1 / 10) 1000

/-- A degenerate camera constructed with target equal to position: the
normalized forward direction is the zero vector. -/
noncomputable def camDegenerate : Camera :=
  mkCamera ⟨0, 0, 0⟩ ⟨0, 0, 0⟩ ⟨0, 1, 0⟩ 1 1 (1 / 10) 1000

/-- Target-derivation consistency of a camera state: the target equals
position + direction(pitch, yaw) * 5 (the fixed look distance), the
pitch/yaw-reconstructed direction is unit length, it agrees with
normalize(target - position), and after a matrix refresh getForward
returns that same direction. -/
def targetConsistent (c : Camera) : Prop :=
  c.target = c.position.add ((dirFromAngles c.pitch c.yaw).mul 5) ∧
  (dirFromAngles c.pitch c.yaw).length = 1 ∧
  (c.target.sub c.position).normalize = dirFromAngles c.pitch c.yaw ∧
  c.updateMatrices.getForward = dirFromAngles c.pitch c.yaw

end

/-! ## Pipeline orchestrator (src/lib/engine/raytracer.ts)

State machine over the GPU resources the RayTracer class owns. Texture
contents are texel maps with rational channels; each texture carries an
allocation generation that is bumped whenever the source destroys and
recreates it, so reallocation is observable. -/

/-- An RGBA color with rational channels. -/
structure Color where
  r : ℚ
  g : ℚ
  b : ℚ
  a : ℚ
deriving DecidableEq

/-- The clear value of the resetAccumulation render pass:
r = 0, g = 0, b = 0, a = 1. -/
def clearColor : Color :=
  ⟨0, 0, 0, 1⟩

/-- The content of a freshly created texture: WebGPU zero-initializes new
textures, so every channel (including alpha) reads 0. -/
def zeroInitColor : Color :=
  ⟨0, 0, 0, 0⟩

/-- The blend rule applied componentwise to RGBA colors, as the vec4
arithmetic of fragmentMain does. -/
def blendColor (previous current : Color) (frameCount : ℚ) : Color :=
  ⟨fragmentBlend previous.r current.r frameCount,
   fragmentBlend previous.g current.g frameCount,
   fragmentBlend previous.b current.b frameCount,
   fragmentBlend previous.a current.a frameCount⟩

/-- A GPU texture: allocated dimensions, an allocation generation (bumped
by each destroy-and-recreate), and the texel contents. -/
structure Texture where
  width : ℕ
  height : ℕ
  gen : ℕ
  content : ℕ × ℕ → Color

/-- createTexture: a fresh texture of the given dimensions with
zero-initialized contents. -/
def freshTexture (width height gen : ℕ) : Texture :=
  ⟨width, height, gen, fun _ => zeroInitColor⟩

/-- RenderSettings as raytracer.ts declares it. -/
structure RenderSettings where
  renderWidth : ℕ
  renderHeight : ℕ
  displayWidth : ℕ
  displayHeight : ℕ
  maxBounces : ℕ
  raysPerPixel : ℕ
deriving DecidableEq

/-- The modelled fields of the RayTracer class: the settings snapshot, the
three owned textures, generation counters for the bind groups and the copy
pipeline (bumped when the source rebuilds them), the compute-shader
frame-count uniform (u32), the display-shader frame_count uniform (f32),
and the copy-pass dimensions buffer. -/
structure RayTracerState where
  settings : RenderSettings
  renderTexture : Texture
  lastFrameBuffer : Texture
  accumulatedFrameTexture : Texture
  computeBindGroupGen : ℕ
  displayBindGroupGen : ℕ
  copyPipelineGen : ℕ
  frameCountBufferVal : ℕ
  frameCountUniform : ℚ
  copyDims : ℚ × ℚ

/-- resetAccumulation: submit a render pass that clears the accumulated
frame texture to clearValue r 0, g 0, b 0, a 1. -/
def RayTracerState.resetAccumulation (st : RayTracerState) : RayTracerState :=
  { st with accumulatedFrameTexture :=
      { st.accumulatedFrameTexture with content := fun _ => clearColor } }

/-- updateDisplayFrameCount: rewrite the display uniforms buffer; the fifth
float (frame_count) becomes the given value. -/
def RayTracerState.updateDisplayFrameCount (st : RayTracerState) (frameCount : ℚ) :
    RayTracerState :=
  { st with frameCountUniform := frameCount }

/-- resetTemporalAccumulation: resetAccumulation, then reset the display
frame count to 0. -/
def RayTracerState.resetTemporalAccumulation (st : RayTracerState) : RayTracerState :=
  (st.resetAccumulation).updateDisplayFrameCount 0

/-- updateUniformsData: re-upload the display uniforms (dimensions are read
from the settings snapshot; the frame_count slot is written as 0.0). -/
def RayTracerState.updateUniformsData (st : RayTracerState) : RayTracerState :=
  { st with frameCountUniform := 0 }

/-- updateFrameCountData: write the compute-shader frame-count uniform. -/
def RayTracerState.updateFrameCountData (st : RayTracerState) (frameCount : ℕ) :
    RayTracerState :=
  { st with frameCountBufferVal := frameCount }

/-- updateCamera: store the camera reference, re-upload the camera uniform
buffer (neither is modelled), then resetTemporalAccumulation. -/
def RayTracerState.updateCamera (st : RayTracerState) : RayTracerState :=
  st.resetTemporalAccumulation

/-- The first conditional of updateRenderSettings: if the new render
dimensions differ from the allocated render texture, destroy and recreate
it and rebuild both bind groups; otherwise leave the state untouched. -/
def RayTracerState.reallocRenderIfChanged (st : RayTracerState) (s : RenderSettings) :
    RayTracerState :=
  if s.renderWidth ≠ st.renderTexture.width ∨ s.renderHeight ≠ st.renderTexture.height then
    { st with
      renderTexture :=
        freshTexture s.renderWidth s.renderHeight (st.renderTexture.gen + 1),
      computeBindGroupGen := st.computeBindGroupGen + 1,
      displayBindGroupGen := st.displayBindGroupGen + 1 }
  else st

/-- The second conditional of updateRenderSettings: if the new display
dimensions differ from the allocated lastFrameBuffer, destroy and recreate
lastFrameBuffer and accumulatedFrameTexture, rebuild the display bind
group, recreate the copy pipeline and rewrite the copy dimensions buffer;
otherwise leave the state untouched. -/
def RayTracerState.reallocDisplayIfChanged (st : RayTracerState) (s : RenderSettings) :
    RayTracerState :=
  if s.displayWidth ≠ st.lastFrameBuffer.width ∨ s.displayHeight ≠ st.lastFrameBuffer.height then
    { st with
      lastFrameBuffer :=
        freshTexture s.displayWidth s.displayHeight (st.lastFrameBuffer.gen + 1),
      accumulatedFrameTexture :=
        freshTexture s.displayWidth s.displayHeight (st.accumulatedFrameTexture.gen + 1),
      displayBindGroupGen := st.displayBindGroupGen + 1,
      copyPipelineGen := st.copyPipelineGen + 1,
      copyDims := ((s.displayWidth : ℚ), (s.displayHeight : ℚ)) }
  else st

/-- updateRenderSettings: store the snapshot; resetTemporalAccumulation;
run the two dimension-keyed reallocation conditionals in order; finally
updateUniformsData. -/
def RayTracerState.updateRenderSettings (st : RayTracerState) (s : RenderSettings) :
    RayTracerState :=
   RayTracerState.updateUniformsData
    (RayTracerState.reallocDisplayIfChanged
      (RayTracerState.reallocRenderIfChanged
        (RayTracerState.resetTemporalAccumulation { st with settings := s }) s) s)

/-- The nearest-neighbor texel lookup of the display pass: display pixel
coordinate q maps to low-res texel floor(q * renderDim / displayDim). -/
def upscaleCoord (renderDim displayDim q : ℕ) : ℕ :=
  q * renderDim / displayDim

/-- render(frameCount = 0): refresh the uniforms (camera, bounces, rays per
pixel are buffer writes without modelled state), write both frame-count
uniforms, run the compute pass (the scene tracer, an external collaborator,
fills the render texture with the sample image), run the display pass
(blend the upscaled sample with the accumulation into lastFrameBuffer and
the visible surface), then the copy pass (accumulation := lastFrameBuffer).
The sample image is a parameter, matching the scene-tracer contract. -/
def RayTracerState.render (st : RayTracerState) (sample : ℕ × ℕ → Color)
    (frameCount : ℕ := 0) : RayTracerState :=
  let st1 := st.updateFrameCountData frameCount
  let st2 := st1.updateDisplayFrameCount (frameCount : ℚ)
  let st3 := { st2 with renderTexture := { st2.renderTexture with content := sample } }
  let blended : ℕ × ℕ → Color := fun q =>
    blendColor (st3.accumulatedFrameTexture.content q)
      (sample (upscaleCoord st3.settings.renderWidth st3.settings.displayWidth q.1,
               upscaleCoord st3.settings.renderHeight st3.settings.displayHeight q.2))
      (frameCount : ℚ)
  let st4 := { st3 with lastFrameBuffer := { st3.lastFrameBuffer with content := blended } }
  { st4 with accumulatedFrameTexture :=
      { st4.accumulatedFrameTexture with content := st4.lastFrameBuffer.content } }

/-- The page render loop (startRenderLoop): every animation frame it
invokes raytracer.render() with no argument, so the default frameCount = 0
is used on every iteration; samples n is the sample image the scene tracer
produces on iteration n. -/
def renderLoop (st : RayTracerState) (samples : ℕ → ℕ × ℕ → Color) : ℕ → RayTracerState
  | 0 => st
  | n + 1 => (renderLoop st samples n).render (samples n)

/-- A concrete orchestrator state used by counterexamples and witnesses:
a 100x100 render target, 200x200 display targets, and a partially
converged accumulation. -/
def st0 : RayTracerState :=
  { settings := ⟨100, 100, 200, 200, 5, 1⟩,
    renderTexture := ⟨100, 100, 0, fun _ => clearColor⟩,
    lastFrameBuffer := ⟨200, 200, 0, fun _ => clearColor⟩,
    accumulatedFrameTexture := ⟨200, 200, 0, fun _ => ⟨1/2, 1/2, 1/2, 1⟩⟩,
    computeBindGroupGen := 0,
    displayBindGroupGen := 0,
    copyPipelineGen := 0,
    frameCountBufferVal := 0,
    frameCountUniform := 7,
    copyDims := (200, 200) }

/-- Settings identical to the allocated dimensions of st0. -/
def sSame : RenderSettings :=
  ⟨100, 100, 200, 200, 5, 1⟩

/-- Settings that change only the render dimensions relative to st0. -/
def sRenderChanged : RenderSettings :=
  ⟨50, 50, 200, 200, 5, 1⟩

/-- Settings that change only the display dimensions relative to st0. -/
def sDisplayChanged : RenderSettings :=
  ⟨100, 100, 400, 300, 5, 1⟩

/-! ## Compute dispatch geometry -/

/-- The workgroup tile width: workgroupSizeX = 16, matching
workgroup_size(16, 16) in the compute shader. -/
def workgroupSizeX : ℕ := 16

/-- The workgroup tile height: workgroupSizeY = 16. -/
def workgroupSizeY : ℕ := 16

/-- workgroupCountX = Math.ceil(renderWidth / workgroupSizeX), which on
naturals is (renderWidth + 15) / 16. -/
def workgroupCountX (renderWidth : ℕ) : ℕ :=
  (renderWidth + workgroupSizeX - 1) / workgroupSizeX

/-- workgroupCountY = Math.ceil(renderHeight / workgroupSizeY). -/
def workgroupCountY (renderHeight : ℕ) : ℕ :=
  (renderHeight + workgroupSizeY - 1) / workgroupSizeY

/-- The write computeMain performs for the invocation with global id
(gx, gy) at render dimensions w x h: the entry guard returns early (no
write) when gx >= w or gy >= h; otherwise the traced color is stored at
texel (gx, gy) (the color itself is scene content, outside this core). -/
def computeMainWrite (gx gy w h : ℕ) : Option (ℕ × ℕ) :=
  if w ≤ gx ∨ h ≤ gy then none
  else some (gx, gy)

end RT

/-! ## Theorems -/

/-- C1: per pixel and frame, the display/blend stage computes its output from
the current sample c, the accumulated value p and the frame counter n as:
output = c when n < 5, and output = p * (1 - w) + c * w with w = 1 / (n + 1)
when n >= 5. The shader code refines the specification formula exactly. -/
theorem C1_blend_rule (p c n : ℚ) :
    RT.fragmentBlend p c n = RT.blendSpec p c n := by
  unfold RT.fragmentBlend RT.blendSpec RT.wgslSelect
  by_cases h : 5 ≤ n
  · simp [h, not_lt.mpr h]
  · simp [h, lt_of_not_le h]

/-- C2 counterexample: for the sample sequence 6, 0, 0, ... the output after
6 frames is 0, while the unweighted cumulative average of the 6 samples is 1,
so the blend is not equivalent to an unweighted cumulative average. -/
theorem C2_cex :
    RT.accAfter RT.cexSamples 6 = 0 ∧
      (RT.cexSamples 0 + RT.cexSamples 1 + RT.cexSamples 2 + RT.cexSamples 3 +
        RT.cexSamples 4 + RT.cexSamples 5) / 6 = 1 := by
  constructor
  · norm_num [RT.accAfter, RT.fragmentBlend, RT.wgslSelect, RT.cexSamples]
  · norm_num [RT.cexSamples]

/-- C2 amended: starting from a reset state, the first five frames pass the
current sample straight through (after N frames with 1 <= N <= 5 the output is
s (N-1)), and for N >= 5 the output is (5 * s 4 + s 5 + ... + s (N-1)) / N:
the sample of frame 4 stands in for the whole priming phase, so the blend equals
the unweighted cumulative average only when s 0 + s 1 + s 2 + s 3 = 4 * s 4,
for instance on constant sequences. -/
theorem C2_blend_closed_form (s : ℕ → ℚ) (N : ℕ) (h5 : 5 ≤ N) :
    (∀ M : ℕ, 1 ≤ M → M ≤ 5 → RT.accAfter s M = s (M - 1)) ∧
      RT.accAfter s N = (5 * s 4 + ∑ k ∈ Finset.Ico 5 N, s k) / N := by
  constructor
  · intro M h1 h2
    interval_cases M <;> simp [RT.accAfter, RT.fragmentBlend, RT.wgslSelect] <;> norm_num
  · induction N with
    | zero => omega
    | succ n ih =>
      rcases Nat.lt_or_ge n 5 with hn | hn
      · have hn5 : n = 4 := by omega
        subst hn5
        simp [RT.accAfter, RT.fragmentBlend, RT.wgslSelect]
        norm_num
      · have hrec := ih hn
        have hcast : (5 : ℚ) ≤ (n : ℚ) := by exact_mod_cast hn
        have hne : (n : ℚ) + 1 ≠ 0 := by positivity
        have hnne : (n : ℚ) ≠ 0 := by
          have : (0 : ℚ) < (n : ℚ) := by exact_mod_cast Nat.lt_of_lt_of_le (by norm_num) hn
          exact ne_of_gt this
        have hsum : ∑ k ∈ Finset.Ico 5 (n + 1), s k =
            (∑ k ∈ Finset.Ico 5 n, s k) + s n := by
          rw [Finset.sum_Ico_succ_top hn]
        rw [RT.accAfter, RT.fragmentBlend]
        simp only [RT.wgslSelect, decide_eq_true_eq, hcast, if_pos]
        rw [hrec, hsum]
        push_cast
        field_simp
        ring

/-- Witness for the amended C2 theorem at the counterexample sequence and N = 6. -/
theorem C2_blend_closed_form_witness :
    RT.accAfter RT.cexSamples 5 = RT.cexSamples 4 ∧
      RT.accAfter RT.cexSamples 6 =
        (5 * RT.cexSamples 4 + ∑ k ∈ Finset.Ico 5 6, RT.cexSamples k) / 6 := by
  refine ⟨(C2_blend_closed_form RT.cexSamples 6 (by norm_num)).1 5 (by norm_num) (by norm_num),
    (C2_blend_closed_form RT.cexSamples 6 (by norm_num)).2⟩

/-- The render-dimension reallocation step never touches lastFrameBuffer. -/
theorem lfb_reallocRender (st : RT.RayTracerState) (s : RT.RenderSettings) :
    (st.reallocRenderIfChanged s).lastFrameBuffer = st.lastFrameBuffer := by
  unfold RT.RayTracerState.reallocRenderIfChanged
  split <;> rfl

/-- The render-dimension reallocation step never touches the accumulation
texture. -/
theorem acc_reallocRender (st : RT.RayTracerState) (s : RT.RenderSettings) :
    (st.reallocRenderIfChanged s).accumulatedFrameTexture = st.accumulatedFrameTexture := by
  unfold RT.RayTracerState.reallocRenderIfChanged
  split <;> rfl

/-- The display-dimension reallocation step never touches the render
texture. -/
theorem rt_reallocDisplay (st : RT.RayTracerState) (s : RT.RenderSettings) :
    (st.reallocDisplayIfChanged s).renderTexture = st.renderTexture := by
  unfold RT.RayTracerState.reallocDisplayIfChanged
  split <;> rfl

/-- With matching render dimensions the first reallocation step is the
identity. -/
theorem reallocRender_of_eq (st : RT.RayTracerState) (s : RT.RenderSettings)
    (h1 : s.renderWidth = st.renderTexture.width)
    (h2 : s.renderHeight = st.renderTexture.height) :
    st.reallocRenderIfChanged s = st := by
  unfold RT.RayTracerState.reallocRenderIfChanged
  rw [if_neg (by simp [h1, h2])]

/-- With matching display dimensions the second reallocation step is the
identity. -/
theorem reallocDisplay_of_eq (st : RT.RayTracerState) (s : RT.RenderSettings)
    (h1 : s.displayWidth = st.lastFrameBuffer.width)
    (h2 : s.displayHeight = st.lastFrameBuffer.height) :
    st.reallocDisplayIfChanged s = st := by
  unfold RT.RayTracerState.reallocDisplayIfChanged
  rw [if_neg (by simp [h1, h2])]

/-- With differing render dimensions the first reallocation step recreates
the render texture and rebuilds both bind groups. -/
theorem reallocRender_of_ne (st : RT.RayTracerState) (s : RT.RenderSettings)
    (h : ¬(s.renderWidth = st.renderTexture.width ∧ s.renderHeight = st.renderTexture.height)) :
    st.reallocRenderIfChanged s =
      { st with
        renderTexture :=
          RT.freshTexture s.renderWidth s.renderHeight (st.renderTexture.gen + 1),
        computeBindGroupGen := st.computeBindGroupGen + 1,
        displayBindGroupGen := st.displayBindGroupGen + 1 } := by
  unfold RT.RayTracerState.reallocRenderIfChanged
  rw [if_pos (by tauto)]

/-- With differing display dimensions the second reallocation step
recreates lastFrameBuffer and the accumulation texture and rebuilds the
dependent resources. -/
theorem reallocDisplay_of_ne (st : RT.RayTracerState) (s : RT.RenderSettings)
    (h : ¬(s.displayWidth = st.lastFrameBuffer.width ∧
        s.displayHeight = st.lastFrameBuffer.height)) :
    st.reallocDisplayIfChanged s =
      { st with
        lastFrameBuffer :=
          RT.freshTexture s.displayWidth s.displayHeight (st.lastFrameBuffer.gen + 1),
        accumulatedFrameTexture :=
          RT.freshTexture s.displayWidth s.displayHeight
            (st.accumulatedFrameTexture.gen + 1),
        displayBindGroupGen := st.displayBindGroupGen + 1,
        copyPipelineGen := st.copyPipelineGen + 1,
        copyDims := ((s.displayWidth : ℚ), (s.displayHeight : ℚ)) } := by
  unfold RT.RayTracerState.reallocDisplayIfChanged
  rw [if_pos (by tauto)]

/-- C3 counterexample: updateRenderSettings with changed display dimensions
clears the old accumulation texture but then destroys it; the accumulation
target the next blend reads is the freshly created, zero-initialized
texture, whose texels are r 0, g 0, b 0, a 0, not the black-opaque clear
value r 0, g 0, b 0, a 1. -/
theorem C3_cex :
    (RT.st0.updateRenderSettings RT.sDisplayChanged).accumulatedFrameTexture.content (0, 0) =
        RT.zeroInitColor ∧
      RT.zeroInitColor ≠ RT.clearColor := by
  constructor
  · rfl
  · simp [RT.zeroInitColor, RT.clearColor, RT.Color.mk.injEq]

/-- C3 amended: every updateCamera call, and every updateRenderSettings call
whose display dimensions match the allocated display targets, leaves the
accumulation target cleared to black opaque (r 0, g 0, b 0, a 1) and the
display frame-count uniform at 0 before the next-frame blend reads them;
when the display dimensions change, the frame count is still reset to 0 but
the accumulation target read next frame is the freshly created
zero-initialized texture (alpha 0) rather than the cleared one. -/
theorem C3_reset_semantics (st : RT.RayTracerState) (s : RT.RenderSettings)
    (hw : s.displayWidth = st.lastFrameBuffer.width)
    (hh : s.displayHeight = st.lastFrameBuffer.height) :
    st.updateCamera.accumulatedFrameTexture.content = (fun _ => RT.clearColor) ∧
      st.updateCamera.frameCountUniform = 0 ∧
      (st.updateRenderSettings s).frameCountUniform = 0 ∧
      (st.updateRenderSettings s).accumulatedFrameTexture.content = fun _ => RT.clearColor := by
  refine ⟨rfl, rfl, rfl, ?_⟩
  unfold RT.RayTracerState.updateRenderSettings
  rw [reallocDisplay_of_eq _ s (by rw [lfb_reallocRender]; exact hw)
    (by rw [lfb_reallocRender]; exact hh)]
  rw [show ∀ z : RT.RayTracerState, z.updateUniformsData.accumulatedFrameTexture =
    z.accumulatedFrameTexture from fun _ => rfl]
  rw [acc_reallocRender]
  rfl

/-- Witness for the amended C3 theorem: the concrete state st0 updated with
settings whose display dimensions match the allocated targets. -/
theorem C3_reset_semantics_witness :
    RT.st0.updateCamera.accumulatedFrameTexture.content = (fun _ => RT.clearColor) ∧
      RT.st0.updateCamera.frameCountUniform = 0 ∧
      (RT.st0.updateRenderSettings RT.sRenderChanged).frameCountUniform = 0 ∧
      (RT.st0.updateRenderSettings RT.sRenderChanged).accumulatedFrameTexture.content =
        fun _ => RT.clearColor :=
  C3_reset_semantics RT.st0 RT.sRenderChanged rfl rfl

/-- C4: the claim says the pipeline frame index increments by exactly one
per rendered frame; in the code the render loop invokes raytracer.render()
with no argument, so the default frameCount = 0 is written to both
frame-count uniforms on every iteration and the counter never advances:
after any positive number of loop iterations both uniforms still hold 0. -/
theorem C4_frame_counter_never_increments (st : RT.RayTracerState)
    (samples : ℕ → ℕ × ℕ → RT.Color) (n : ℕ) :
    (RT.renderLoop st samples (n + 1)).frameCountUniform = 0 ∧
      (RT.renderLoop st samples (n + 1)).frameCountBufferVal = 0 := by
  constructor <;> rfl

/-- C5: when both dimension pairs match the allocated textures no texture is
destroyed or recreated; when only the render dimensions differ exactly the
low-resolution render target is reallocated (both bind groups rebuilt) while
the display-resolution targets are untouched; when only the display
dimensions differ exactly the snapshot (lastFrameBuffer) and accumulation
targets are reallocated while the render target is untouched. -/
theorem C5_reallocation (st : RT.RayTracerState) (s : RT.RenderSettings) :
    (s.renderWidth = st.renderTexture.width → s.renderHeight = st.renderTexture.height →
      s.displayWidth = st.lastFrameBuffer.width → s.displayHeight = st.lastFrameBuffer.height →
      (st.updateRenderSettings s).renderTexture.gen = st.renderTexture.gen ∧
        (st.updateRenderSettings s).lastFrameBuffer.gen = st.lastFrameBuffer.gen ∧
        (st.updateRenderSettings s).accumulatedFrameTexture.gen =
          st.accumulatedFrameTexture.gen) ∧
    (¬(s.renderWidth = st.renderTexture.width ∧ s.renderHeight = st.renderTexture.height) →
      s.displayWidth = st.lastFrameBuffer.width → s.displayHeight = st.lastFrameBuffer.height →
      (st.updateRenderSettings s).renderTexture.gen = st.renderTexture.gen + 1 ∧
        (st.updateRenderSettings s).computeBindGroupGen = st.computeBindGroupGen + 1 ∧
        (st.updateRenderSettings s).displayBindGroupGen = st.displayBindGroupGen + 1 ∧
        (st.updateRenderSettings s).lastFrameBuffer.gen = st.lastFrameBuffer.gen ∧
        (st.updateRenderSettings s).accumulatedFrameTexture.gen =
          st.accumulatedFrameTexture.gen) ∧
    (s.renderWidth = st.renderTexture.width → s.renderHeight = st.renderTexture.height →
      ¬(s.displayWidth = st.lastFrameBuffer.width ∧ s.displayHeight = st.lastFrameBuffer.height) →
      (st.updateRenderSettings s).renderTexture.gen = st.renderTexture.gen ∧
        (st.updateRenderSettings s).lastFrameBuffer.gen = st.lastFrameBuffer.gen + 1 ∧
        (st.updateRenderSettings s).accumulatedFrameTexture.gen =
          st.accumulatedFrameTexture.gen + 1) := by
  refine ⟨?_, ?_, ?_⟩
  · intro h1 h2 h3 h4
    unfold RT.RayTracerState.updateRenderSettings
    rw [reallocRender_of_eq _ s (by exact h1) (by exact h2),
      reallocDisplay_of_eq _ s (by exact h3) (by exact h4)]
    exact ⟨rfl, rfl, rfl⟩
  · intro h1 h2 h3
    unfold RT.RayTracerState.updateRenderSettings
    rw [reallocRender_of_ne _ s (by exact h1),
      reallocDisplay_of_eq _ s (by exact h2) (by exact h3)]
    exact ⟨rfl, rfl, rfl, rfl, rfl⟩
  · intro h1 h2 h3
    unfold RT.RayTracerState.updateRenderSettings
    rw [reallocRender_of_eq _ s (by exact h1) (by exact h2),
      reallocDisplay_of_ne _ s (by exact h3)]
    exact ⟨rfl, rfl, rfl⟩

/-- Witness for C5 at the concrete state st0: identical settings leave the
render-target allocation untouched; render-only changes bump exactly the
render target; display-only changes bump exactly the accumulation target. -/
theorem C5_reallocation_witness :
    (RT.st0.updateRenderSettings RT.sSame).renderTexture.gen = RT.st0.renderTexture.gen ∧
      (RT.st0.updateRenderSettings RT.sRenderChanged).renderTexture.gen =
        RT.st0.renderTexture.gen + 1 ∧
      (RT.st0.updateRenderSettings RT.sDisplayChanged).accumulatedFrameTexture.gen =
        RT.st0.accumulatedFrameTexture.gen + 1 :=
  ⟨((C5_reallocation RT.st0 RT.sSame).1 rfl rfl rfl rfl).1,
   ((C5_reallocation RT.st0 RT.sRenderChanged).2.1 (by simp [RT.sRenderChanged, RT.st0])
      rfl rfl).1,
   ((C5_reallocation RT.st0 RT.sDisplayChanged).2.2 rfl rfl
      (by simp [RT.sDisplayChanged, RT.st0])).2.2⟩

/-- C9: the dispatched grid of ceil(w/16) x ceil(h/16) workgroups of 16x16
invocations covers every pixel of the w x h render grid; an invocation whose
global id falls outside the grid performs no write; and every write lands
inside the w x h bounds, so the last partial tile never writes out of
bounds. -/
theorem C9_dispatch_covers_and_guards (w h : ℕ) :
    (∀ x y : ℕ, x < w → y < h →
      x < RT.workgroupSizeX * RT.workgroupCountX w ∧
        y < RT.workgroupSizeY * RT.workgroupCountY h) ∧
    (∀ gx gy : ℕ, w ≤ gx ∨ h ≤ gy → RT.computeMainWrite gx gy w h = none) ∧
    (∀ gx gy : ℕ, ∀ q : ℕ × ℕ, RT.computeMainWrite gx gy w h = some q →
      q.1 < w ∧ q.2 < h) := by
  refine ⟨?_, ?_, ?_⟩
  · intro x y hx hy
    unfold RT.workgroupCountX RT.workgroupCountY RT.workgroupSizeX RT.workgroupSizeY
    omega
  · intro gx gy hout
    unfold RT.computeMainWrite
    exact if_pos hout
  · intro gx gy q hq
    unfold RT.computeMainWrite at hq
    by_cases hout : w ≤ gx ∨ h ≤ gy
    · rw [if_pos hout] at hq
      exact absurd hq (by simp)
    · rw [if_neg hout] at hq
      obtain ⟨rfl⟩ := Option.some_injective _ hq
      push_neg at hout
      exact ⟨hout.1, hout.2⟩

/-- Witness for C9 at render dimensions 100 x 50: the corner pixel (99, 49)
is covered by the dispatch and the out-of-bounds invocation (100, 0) of the
last partial tile performs no write. -/
theorem C9_dispatch_witness :
    (99 < RT.workgroupSizeX * RT.workgroupCountX 100 ∧
      49 < RT.workgroupSizeY * RT.workgroupCountY 50) ∧
      RT.computeMainWrite 100 0 100 50 = none :=
  ⟨(C9_dispatch_covers_and_guards 100 50).1 99 49 (by norm_num) (by norm_num),
   (C9_dispatch_covers_and_guards 100 50).2.1 100 0 (Or.inl (by norm_num))⟩

/-- The dot product of a vector with itself is nonnegative. -/
theorem dot_self_nonneg (v : RT.Vec3) : 0 ≤ v.dot v := by
  unfold RT.Vec3.dot
  nlinarith [mul_self_nonneg v.x, mul_self_nonneg v.y, mul_self_nonneg v.z]

/-- The dot product is symmetric. -/
theorem dot_comm (a b : RT.Vec3) : a.dot b = b.dot a := by
  unfold RT.Vec3.dot
  ring

/-- A vector whose self-dot-product vanishes is the zero vector. -/
theorem eq_zero_of_dot_self (v : RT.Vec3) (h : v.dot v = 0) : v = ⟨0, 0, 0⟩ := by
  unfold RT.Vec3.dot at h
  have hx : v.x = 0 := by nlinarith [mul_self_nonneg v.y, mul_self_nonneg v.z]
  have hy : v.y = 0 := by nlinarith [mul_self_nonneg v.x, mul_self_nonneg v.z]
  have hz : v.z = 0 := by nlinarith [mul_self_nonneg v.x, mul_self_nonneg v.y]
  cases v
  simp_all

/-- The length is the square root of the self-dot-product. -/
theorem length_eq_sqrt_dot (v : RT.Vec3) : v.length = Real.sqrt (v.dot v) := rfl

/-- A nonzero vector has positive length. -/
theorem length_pos_of_ne (v : RT.Vec3) (h : v ≠ ⟨0, 0, 0⟩) : 0 < v.length := by
  rw [length_eq_sqrt_dot]
  apply Real.sqrt_pos.mpr
  rcases lt_or_eq_of_le (dot_self_nonneg v) with hlt | heq
  · exact hlt
  · exact absurd (eq_zero_of_dot_self v heq.symm) h

/-- Squaring the length recovers the self-dot-product. -/
theorem length_mul_self (v : RT.Vec3) : v.length * v.length = v.dot v := by
  rw [length_eq_sqrt_dot]
  exact Real.mul_self_sqrt (dot_self_nonneg v)

/-- On a nonzero vector, normalize divides by the length. -/
theorem normalize_of_ne (v : RT.Vec3) (h : v ≠ ⟨0, 0, 0⟩) :
    v.normalize = v.div v.length := by
  unfold RT.Vec3.normalize
  rw [if_neg (ne_of_gt (length_pos_of_ne v h))]

/-- The normal form of a nonzero vector has unit self-dot-product. -/
theorem dot_normalize_self (v : RT.Vec3) (h : v ≠ ⟨0, 0, 0⟩) :
    v.normalize.dot v.normalize = 1 := by
  rw [normalize_of_ne v h]
  have hl : v.length ≠ 0 := ne_of_gt (length_pos_of_ne v h)
  have hd := length_mul_self v
  unfold RT.Vec3.div RT.Vec3.dot
  unfold RT.Vec3.dot at hd
  field_simp
  linarith [hd]

/-- The normal form of a nonzero vector has length one. -/
theorem length_normalize (v : RT.Vec3) (h : v ≠ ⟨0, 0, 0⟩) :
    v.normalize.length = 1 := by
  rw [length_eq_sqrt_dot, dot_normalize_self v h, Real.sqrt_one]

/-- The cross product is orthogonal to its first factor. -/
theorem dot_cross_left (a b : RT.Vec3) : (a.cross b).dot a = 0 := by
  unfold RT.Vec3.cross RT.Vec3.dot
  ring

/-- The cross product is orthogonal to its second factor. -/
theorem dot_cross_right (a b : RT.Vec3) : (a.cross b).dot b = 0 := by
  unfold RT.Vec3.cross RT.Vec3.dot
  ring

/-- Lagrange: the squared norm of a cross product. -/
theorem cross_dot_self (a b : RT.Vec3) :
    (a.cross b).dot (a.cross b) = a.dot a * b.dot b - a.dot b * (a.dot b) := by
  unfold RT.Vec3.cross RT.Vec3.dot
  ring

/-- Scalar division distributes over the cross product in the first
factor. -/
theorem cross_div_left (a b : RT.Vec3) (s : ℝ) :
    (a.div s).cross b = (a.cross b).div s := by
  unfold RT.Vec3.cross RT.Vec3.div
  rw [RT.Vec3.mk.injEq]
  refine ⟨by ring, by ring, by ring⟩

/-- Scalar division distributes over the dot product in the second
factor. -/
theorem dot_div_right (a b : RT.Vec3) (s : ℝ) :
    a.dot (b.div s) = a.dot b / s := by
  unfold RT.Vec3.dot RT.Vec3.div
  ring

/-- Dividing a nonzero vector by a nonzero scalar keeps it nonzero. -/
theorem div_ne_zero_vec (v : RT.Vec3) (s : ℝ) (hv : v ≠ ⟨0, 0, 0⟩) (hs : s ≠ 0) :
    v.div s ≠ ⟨0, 0, 0⟩ := by
  unfold RT.Vec3.div
  intro h
  rw [RT.Vec3.mk.injEq] at h
  apply hv
  cases v
  rw [RT.Vec3.mk.injEq]
  obtain ⟨h1, h2, h3⟩ := h
  exact ⟨by field_simp at h1; exact h1, by field_simp at h2; exact h2,
    by field_simp at h3; exact h3⟩

/-- updateMatrices leaves the pitch untouched. -/
theorem pitch_updateMatrices (c : RT.Camera) : c.updateMatrices.pitch = c.pitch := by
  unfold RT.Camera.updateMatrices
  split <;> rfl

/-- updateMatrices leaves the target untouched. -/
theorem target_updateMatrices (c : RT.Camera) : c.updateMatrices.target = c.target := by
  unfold RT.Camera.updateMatrices
  split <;> rfl

/-- updateMatrices leaves the position untouched. -/
theorem position_updateMatrices (c : RT.Camera) :
    c.updateMatrices.position = c.position := by
  unfold RT.Camera.updateMatrices
  split <;> rfl

/-- On a dirty camera, updateMatrices installs the freshly computed view
matrix. -/
theorem viewMatrix_updateMatrices_of_dirty (c : RT.Camera) (h : c.matricesDirty = true) :
    c.updateMatrices.viewMatrix = c.calculateViewMatrix := by
  unfold RT.Camera.updateMatrices
  rw [if_pos h]

/-- On a clean camera, updateMatrices is the identity. -/
theorem updateMatrices_of_clean (c : RT.Camera) (h : c.matricesDirty = false) :
    c.updateMatrices = c := by
  unfold RT.Camera.updateMatrices
  rw [if_neg (by simp [h])]

/-- When the cached view matrix agrees with the freshly computed one,
getForward reads back normalize(target - position). -/
theorem getForward_calc (c : RT.Camera) (h : c.viewMatrix = c.calculateViewMatrix) :
    c.getForward = (c.target.sub c.position).normalize := by
  unfold RT.Camera.getForward
  rw [h]
  unfold RT.Camera.calculateViewMatrix
  simp only [neg_neg]

/-- When the cached view matrix agrees with the freshly computed one,
getRight reads back normalize(cross(forward, up)). -/
theorem getRight_calc (c : RT.Camera) (h : c.viewMatrix = c.calculateViewMatrix) :
    c.getRight = (((c.target.sub c.position).normalize).cross c.up).normalize := by
  unfold RT.Camera.getRight
  rw [h]
  unfold RT.Camera.calculateViewMatrix
  simp only []

/-- When the cached view matrix agrees with the freshly computed one,
getUpBasis reads back cross(right, forward). -/
theorem getUpBasis_calc (c : RT.Camera) (h : c.viewMatrix = c.calculateViewMatrix) :
    c.getUpBasis =
      ((((c.target.sub c.position).normalize).cross c.up).normalize).cross
        ((c.target.sub c.position).normalize) := by
  unfold RT.Camera.getUpBasis
  rw [h]
  unfold RT.Camera.calculateViewMatrix
  simp only []

/-- rotateY never changes the pitch. -/
theorem pitch_rotateY (c : RT.Camera) (a : ℝ) : (c.rotateY a).pitch = c.pitch := rfl

/-- rotateY adds its delta to the yaw with no clamping. -/
theorem yaw_rotateY (c : RT.Camera) (a : ℝ) : (c.rotateY a).yaw = c.yaw + a := rfl

/-- rotateX clamps the incremented pitch into
[-pi/2 + 0.01, pi/2 - 0.01]. -/
theorem pitch_rotateX (c : RT.Camera) (a : ℝ) :
    (c.rotateX a).pitch =
      max (-(Real.pi / 2) + 1 / 100) (min (Real.pi / 2 - 1 / 100) (c.pitch + a)) := rfl

/-- After any rotateX call the pitch lies in the clamp interval. -/
theorem pitch_rotateX_mem (c : RT.Camera) (a : ℝ) :
    (c.rotateX a).pitch ∈
      Set.Icc (-(Real.pi / 2) + 1 / 100) (Real.pi / 2 - 1 / 100) := by
  rw [pitch_rotateX]
  constructor
  · exact le_max_left _ _
  · apply max_le
    · linarith [Real.pi_gt_three]
    · exact min_le_left _ _

/-- The back-computed constructor pitch for a target directly above the
position is exactly -pi/2. -/
theorem pitch_camStraightUp : RT.camStraightUp.pitch = -(Real.pi / 2) := by
  have hlen : (RT.Vec3.length ⟨0, 5, 0⟩) = 5 := by
    unfold RT.Vec3.length
    norm_num
    rw [show (25 : ℝ) = 5 ^ 2 by norm_num]
    exact Real.sqrt_sq (by norm_num)
  have hnorm : (RT.Vec3.normalize ⟨0, 5, 0⟩) = ⟨0, 1, 0⟩ := by
    unfold RT.Vec3.normalize
    rw [if_neg (by rw [hlen]; norm_num), hlen]
    unfold RT.Vec3.div
    norm_num
  have hsub : RT.Vec3.sub ⟨0, 5, 0⟩ ⟨0, 0, 0⟩ = (⟨0, 5, 0⟩ : RT.Vec3) := by
    unfold RT.Vec3.sub
    norm_num
  unfold RT.camStraightUp RT.mkCamera
  rw [pitch_updateMatrices]
  show RT.atan2
      (-(RT.Vec3.normalize (RT.Vec3.sub ⟨0, 5, 0⟩ ⟨0, 0, 0⟩)).y)
      (Real.sqrt ((RT.Vec3.normalize (RT.Vec3.sub ⟨0, 5, 0⟩ ⟨0, 0, 0⟩)).x *
          (RT.Vec3.normalize (RT.Vec3.sub ⟨0, 5, 0⟩ ⟨0, 0, 0⟩)).x +
        (RT.Vec3.normalize (RT.Vec3.sub ⟨0, 5, 0⟩ ⟨0, 0, 0⟩)).z *
          (RT.Vec3.normalize (RT.Vec3.sub ⟨0, 5, 0⟩ ⟨0, 0, 0⟩)).z)) =
      -(Real.pi / 2)
  rw [hsub, hnorm]
  norm_num [RT.atan2]

/-- C6 counterexample: a camera constructed looking straight up starts with
pitch exactly -pi/2; a subsequent rotateY call (a rotation) leaves the
pitch at -pi/2, outside [-pi/2 + 0.01, pi/2 - 0.01] (and outside the open
interval (-pi/2, pi/2)), refuting the claim for every camera. -/
theorem C6_cex :
    (RT.camStraightUp.rotateY 1).pitch ∉
      Set.Icc (-(Real.pi / 2) + 1 / 100) (Real.pi / 2 - 1 / 100) := by
  rw [pitch_rotateY, pitch_camStraightUp]
  intro h
  obtain ⟨h1, h2⟩ := h
  linarith

/-- C6 amended: provided the camera pitch already lies in the clamp
interval [-pi/2 + 0.01, pi/2 - 0.01] (true after any rotateX, and for every
camera not constructed looking within 0.01 rad of straight up or down),
every sequence of rotateX/rotateY calls keeps the pitch in that interval;
moreover any single rotateX lands in the interval unconditionally, and yaw
is unbounded: rotateY adds its delta with no clamping. -/
theorem C6_pitch_clamp (c : RT.Camera) (ops : List RT.RotOp) (a : ℝ)
    (h : c.pitch ∈ Set.Icc (-(Real.pi / 2) + 1 / 100) (Real.pi / 2 - 1 / 100)) :
    (RT.applyRots c ops).pitch ∈
        Set.Icc (-(Real.pi / 2) + 1 / 100) (Real.pi / 2 - 1 / 100) ∧
      (c.rotateX a).pitch ∈
        Set.Icc (-(Real.pi / 2) + 1 / 100) (Real.pi / 2 - 1 / 100) ∧
      (c.rotateY a).yaw = c.yaw + a := by
  refine ⟨?_, pitch_rotateX_mem c a, yaw_rotateY c a⟩
  induction ops generalizing c with
  | nil => exact h
  | cons op ops ih =>
    cases op with
    | rx b =>
      exact ih (c.rotateX b) (pitch_rotateX_mem c b)
    | ry b =>
      apply ih (c.rotateY b)
      rw [pitch_rotateY]
      exact h

/-- Witness for the amended C6 theorem: the concrete camera state with pitch
0 stays clamped through a rotation sequence with large deltas. -/
theorem C6_pitch_clamp_witness :
    (RT.applyRots RT.camWitness [RT.RotOp.rx 10, RT.RotOp.ry 100, RT.RotOp.rx (-20)]).pitch ∈
        Set.Icc (-(Real.pi / 2) + 1 / 100) (Real.pi / 2 - 1 / 100) ∧
      (RT.camWitness.rotateX 10).pitch ∈
        Set.Icc (-(Real.pi / 2) + 1 / 100) (Real.pi / 2 - 1 / 100) ∧
      (RT.camWitness.rotateY 10).yaw = RT.camWitness.yaw + 10 :=
  C6_pitch_clamp RT.camWitness [RT.RotOp.rx 10, RT.RotOp.ry 100, RT.RotOp.rx (-20)] 10
    (by
      show (0 : ℝ) ∈ Set.Icc (-(Real.pi / 2) + 1 / 100) (Real.pi / 2 - 1 / 100)
      constructor
      · linarith [Real.pi_gt_three]
      · linarith [Real.pi_gt_three])

/-- The direction reconstructed from pitch and yaw has unit
self-dot-product: trigonometric Pythagoras twice. -/
theorem dir_dot_self (p y : ℝ) :
    (RT.dirFromAngles p y).dot (RT.dirFromAngles p y) = 1 := by
  unfold RT.dirFromAngles RT.Vec3.dot
  dsimp only
  have h1 := Real.sin_sq_add_cos_sq p
  have h2 := Real.sin_sq_add_cos_sq y
  linear_combination (Real.cos p * Real.cos p) * h2 + h1

/-- The direction reconstructed from pitch and yaw has length one. -/
theorem dir_length (p y : ℝ) : (RT.dirFromAngles p y).length = 1 := by
  rw [length_eq_sqrt_dot, dir_dot_self, Real.sqrt_one]

/-- Subtracting the position from position + offset recovers the offset. -/
theorem add_sub_self_vec (p q : RT.Vec3) : (p.add q).sub p = q := by
  unfold RT.Vec3.add RT.Vec3.sub
  cases q
  rw [RT.Vec3.mk.injEq]
  refine ⟨by ring, by ring, by ring⟩

/-- Normalizing five times a unit vector gives the vector back. -/
theorem normalize_five_smul (d : RT.Vec3) (hd : d.dot d = 1) :
    (d.mul 5).normalize = d := by
  have hdot : (d.mul 5).dot (d.mul 5) = 25 := by
    unfold RT.Vec3.mul RT.Vec3.dot
    unfold RT.Vec3.dot at hd
    dsimp only
    linear_combination 25 * hd
  have hne : d.mul 5 ≠ ⟨0, 0, 0⟩ := by
    intro h
    rw [h] at hdot
    unfold RT.Vec3.dot at hdot
    norm_num at hdot
  have hlen : (d.mul 5).length = 5 := by
    rw [length_eq_sqrt_dot, hdot, show (25 : ℝ) = 5 ^ 2 by norm_num]
    exact Real.sqrt_sq (by norm_num)
  rw [normalize_of_ne _ hne, hlen]
  unfold RT.Vec3.mul RT.Vec3.div
  cases d
  rw [RT.Vec3.mk.injEq]
  refine ⟨by ring, by ring, by ring⟩

/-- On a dirty camera, updateMatrices leaves the cache agreeing with the
freshly computed view matrix of the resulting state. -/
theorem viewMatrix_updateMatrices_calc (c : RT.Camera) (h : c.matricesDirty = true) :
    c.updateMatrices.viewMatrix = c.updateMatrices.calculateViewMatrix := by
  rw [viewMatrix_updateMatrices_of_dirty c h]
  unfold RT.Camera.updateMatrices
  rw [if_pos h]
  unfold RT.Camera.calculateViewMatrix
  dsimp only

/-- Every camera produced by updateTargetFromAngles followed by marking the
matrices dirty satisfies target-derivation consistency. -/
theorem targetConsistent_mk (c : RT.Camera) :
    RT.targetConsistent { c.updateTargetFromAngles with matricesDirty := true } := by
  refine ⟨rfl, dir_length c.pitch c.yaw, ?_, ?_⟩
  · show ((c.position.add ((RT.dirFromAngles c.pitch c.yaw).mul 5)).sub c.position).normalize =
      RT.dirFromAngles c.pitch c.yaw
    rw [add_sub_self_vec]
    exact normalize_five_smul _ (dir_dot_self c.pitch c.yaw)
  · rw [getForward_calc _ (viewMatrix_updateMatrices_calc _ rfl)]
    rw [target_updateMatrices, position_updateMatrices]
    show ((c.position.add ((RT.dirFromAngles c.pitch c.yaw).mul 5)).sub c.position).normalize =
      RT.dirFromAngles c.pitch c.yaw
    rw [add_sub_self_vec]
    exact normalize_five_smul _ (dir_dot_self c.pitch c.yaw)

/-- C7: after any moveTo, rotateX or rotateY call the target of the camera
equals position + direction(pitch, yaw) * lookDistance with lookDistance
the fixed constant 5 and direction(pitch, yaw) = (sin yaw * cos pitch,
-sin pitch, cos yaw * cos pitch); that direction is unit length, equals
normalize(target - position), and matches the basis-derived forward read
back after a matrix refresh. -/
theorem C7_target_derivation (c : RT.Camera) (p : RT.Vec3) (a : ℝ) :
    RT.targetConsistent (c.moveTo p) ∧
      RT.targetConsistent (c.rotateX a) ∧
      RT.targetConsistent (c.rotateY a) :=
  ⟨targetConsistent_mk _, targetConsistent_mk _, targetConsistent_mk _⟩

/-- updateMatrices leaves the world-up vector untouched. -/
theorem up_updateMatrices (c : RT.Camera) : c.updateMatrices.up = c.up := by
  unfold RT.Camera.updateMatrices
  split <;> rfl

/-- C8 counterexample: the camera constructed with target equal to position
has a zero-length forward basis vector, so the basis getters are not
orthonormal for every camera state. -/
theorem C8_cex :
    RT.camDegenerate.getForward.length = 0 ∧ (0 : ℝ) ≠ 1 := by
  constructor
  · have hsub : RT.Vec3.sub ⟨0, 0, 0⟩ ⟨0, 0, 0⟩ = (⟨0, 0, 0⟩ : RT.Vec3) := by
      unfold RT.Vec3.sub
      norm_num
    have hlen0 : (RT.Vec3.length ⟨0, 0, 0⟩) = 0 := by
      unfold RT.Vec3.length
      norm_num
    have hnorm : (RT.Vec3.normalize ⟨0, 0, 0⟩) = ⟨0, 0, 0⟩ := by
      unfold RT.Vec3.normalize
      rw [if_pos hlen0]
    unfold RT.camDegenerate RT.mkCamera
    rw [getForward_calc _ (viewMatrix_updateMatrices_calc _ rfl),
      target_updateMatrices, position_updateMatrices]
    show (RT.Vec3.normalize (RT.Vec3.sub ⟨0, 0, 0⟩ ⟨0, 0, 0⟩)).length = 0
    rw [hsub, hnorm]
    exact hlen0
  · norm_num

/-- The orthonormal-triad core: from a unit forward vector fv and a world
up uv whose cross product with fv is nonzero, the derived right and up
vectors are unit length and pairwise orthogonal to fv and each other. -/
theorem orthonormal_of (fv uv : RT.Vec3) (hf1 : fv.dot fv = 1)
    (hwne : fv.cross uv ≠ ⟨0, 0, 0⟩) :
    ((fv.cross uv).normalize).length = 1 ∧
      (((fv.cross uv).normalize).cross fv).length = 1 ∧
      fv.dot ((fv.cross uv).normalize) = 0 ∧
      fv.dot (((fv.cross uv).normalize).cross fv) = 0 ∧
      ((fv.cross uv).normalize).dot (((fv.cross uv).normalize).cross fv) = 0 := by
  have hr1 : ((fv.cross uv).normalize).dot ((fv.cross uv).normalize) = 1 :=
    dot_normalize_self _ hwne
  have hwlen : (fv.cross uv).length ≠ 0 := ne_of_gt (length_pos_of_ne _ hwne)
  have hfw : fv.dot (fv.cross uv) = 0 := by
    rw [dot_comm]
    exact dot_cross_left fv uv
  have hfr : fv.dot ((fv.cross uv).normalize) = 0 := by
    rw [normalize_of_ne _ hwne, dot_div_right, hfw, zero_div]
  have hrf : ((fv.cross uv).normalize).dot fv = 0 := by
    rw [dot_comm]
    exact hfr
  have hu1 : (((fv.cross uv).normalize).cross fv).dot
      (((fv.cross uv).normalize).cross fv) = 1 := by
    rw [cross_dot_self, hr1, hf1, hrf]
    ring
  refine ⟨length_normalize _ hwne, ?_, hfr, ?_, ?_⟩
  · rw [length_eq_sqrt_dot, hu1, Real.sqrt_one]
  · rw [dot_comm]
    exact dot_cross_right _ fv
  · rw [dot_comm]
    exact dot_cross_left _ fv

/-- C8 amended: for every camera state about to be refreshed whose forward
direction (target - position) is nonzero and not parallel to the world up
(their cross product is nonzero), the basis vectors read back from the view
matrix by getForward, getRight and getUpBasis are orthonormal: each has
length 1 and all pairwise dot products are 0. Degenerate states (target
equal to position, or forward parallel to up) are excluded; C8_cex shows
the original universally quantified claim fails on them. -/
theorem C8_basis_orthonormal (c : RT.Camera)
    (hd : c.matricesDirty = true)
    (hf : c.target.sub c.position ≠ ⟨0, 0, 0⟩)
    (hc : (c.target.sub c.position).cross c.up ≠ ⟨0, 0, 0⟩) :
    c.updateMatrices.getForward.length = 1 ∧
      c.updateMatrices.getRight.length = 1 ∧
      c.updateMatrices.getUpBasis.length = 1 ∧
      c.updateMatrices.getForward.dot c.updateMatrices.getRight = 0 ∧
      c.updateMatrices.getForward.dot c.updateMatrices.getUpBasis = 0 ∧
      c.updateMatrices.getRight.dot c.updateMatrices.getUpBasis = 0 := by
  have hvm := viewMatrix_updateMatrices_calc c hd
  have hFw : c.updateMatrices.getForward = (c.target.sub c.position).normalize := by
    rw [getForward_calc _ hvm, target_updateMatrices, position_updateMatrices]
  have hRt : c.updateMatrices.getRight =
      (((c.target.sub c.position).normalize).cross c.up).normalize := by
    rw [getRight_calc _ hvm, target_updateMatrices, position_updateMatrices,
      up_updateMatrices]
  have hUp : c.updateMatrices.getUpBasis =
      ((((c.target.sub c.position).normalize).cross c.up).normalize).cross
        ((c.target.sub c.position).normalize) := by
    rw [getUpBasis_calc _ hvm, target_updateMatrices, position_updateMatrices,
      up_updateMatrices]
  have hvlen : (c.target.sub c.position).length ≠ 0 :=
    ne_of_gt (length_pos_of_ne _ hf)
  have hf1 : ((c.target.sub c.position).normalize).dot
      ((c.target.sub c.position).normalize) = 1 := dot_normalize_self _ hf
  have hwne : ((c.target.sub c.position).normalize).cross c.up ≠ ⟨0, 0, 0⟩ := by
    rw [normalize_of_ne _ hf, cross_div_left]
    exact div_ne_zero_vec _ _ hc hvlen
  obtain ⟨h1, h2, h3, h4, h5⟩ := orthonormal_of _ c.up hf1 hwne
  rw [hFw, hRt, hUp]
  exact ⟨length_normalize _ hf, h1, h2, h3, h4, h5⟩

/-- Witness for the amended C8 theorem: the concrete camera at (0, 0, -5)
looking at the origin with world up (0, 1, 0). -/
theorem C8_basis_orthonormal_witness :
    RT.camWitness.updateMatrices.getForward.length = 1 ∧
      RT.camWitness.updateMatrices.getRight.length = 1 ∧
      RT.camWitness.updateMatrices.getUpBasis.length = 1 ∧
      RT.camWitness.updateMatrices.getForward.dot RT.camWitness.updateMatrices.getRight = 0 ∧
      RT.camWitness.updateMatrices.getForward.dot
        RT.camWitness.updateMatrices.getUpBasis = 0 ∧
      RT.camWitness.updateMatrices.getRight.dot
        RT.camWitness.updateMatrices.getUpBasis = 0 :=
  C8_basis_orthonormal RT.camWitness rfl
    (by
      show RT.Vec3.sub ⟨0, 0, 0⟩ ⟨0, 0, -5⟩ ≠ (⟨0, 0, 0⟩ : RT.Vec3)
      unfold RT.Vec3.sub
      intro h
      rw [RT.Vec3.mk.injEq] at h
      norm_num at h)
    (by
      show (RT.Vec3.sub ⟨0, 0, 0⟩ ⟨0, 0, -5⟩).cross ⟨0, 1, 0⟩ ≠ (⟨0, 0, 0⟩ : RT.Vec3)
      unfold RT.Vec3.sub RT.Vec3.cross
      intro h
      rw [RT.Vec3.mk.injEq] at h
      norm_num at h)

/-- C10: the basis getters read only the cached view matrix, so every
mutator (moveTo, rotateX, rotateY, setFOV, setAspect) leaves the cached
view matrix — and hence the getForward result — unchanged until the next
refreshing call; getShaderData refreshes the matrices first, so assuming
the cache invariant (the cache of a clean camera equals its freshly computed
view matrix), the position, forward, right and up it returns are all
derived from the current position, target and up vector. -/
theorem C10_lazy_cached_basis (c : RT.Camera) (p : RT.Vec3) (a fv ar : ℝ)
    (hsync : c.matricesDirty = false → c.viewMatrix = c.calculateViewMatrix) :
    (c.moveTo p).viewMatrix = c.viewMatrix ∧
      (c.rotateX a).viewMatrix = c.viewMatrix ∧
      (c.rotateY a).viewMatrix = c.viewMatrix ∧
      (c.setFOV fv).viewMatrix = c.viewMatrix ∧
      (c.setAspect ar).viewMatrix = c.viewMatrix ∧
      (c.moveTo p).getForward = c.getForward ∧
      (c.rotateX a).getForward = c.getForward ∧
      c.getShaderData.position = c.position ∧
      c.getShaderData.forward = (c.target.sub c.position).normalize ∧
      c.getShaderData.right =
        (((c.target.sub c.position).normalize).cross c.up).normalize ∧
      c.getShaderData.up =
        ((((c.target.sub c.position).normalize).cross c.up).normalize).cross
          ((c.target.sub c.position).normalize) := by
  refine ⟨rfl, rfl, rfl, rfl, rfl, rfl, rfl, ?_, ?_, ?_, ?_⟩ <;>
    cases hdirty : c.matricesDirty
  · show c.updateMatrices.position = c.position
    rw [position_updateMatrices]
  · show c.updateMatrices.position = c.position
    rw [position_updateMatrices]
  · show c.updateMatrices.getForward = _
    rw [updateMatrices_of_clean c hdirty, getForward_calc c (hsync hdirty)]
  · show c.updateMatrices.getForward = _
    rw [getForward_calc _ (viewMatrix_updateMatrices_calc c hdirty),
      target_updateMatrices, position_updateMatrices]
  · show c.updateMatrices.getRight = _
    rw [updateMatrices_of_clean c hdirty, getRight_calc c (hsync hdirty)]
  · show c.updateMatrices.getRight = _
    rw [getRight_calc _ (viewMatrix_updateMatrices_calc c hdirty),
      target_updateMatrices, position_updateMatrices, up_updateMatrices]
  · show c.updateMatrices.getUpBasis = _
    rw [updateMatrices_of_clean c hdirty, getUpBasis_calc c (hsync hdirty)]
  · show c.updateMatrices.getUpBasis = _
    rw [getUpBasis_calc _ (viewMatrix_updateMatrices_calc c hdirty),
      target_updateMatrices, position_updateMatrices, up_updateMatrices]

/-- Witness for C10 at the concrete dirty camera state camWitness (its
cache invariant hypothesis is vacuous since the dirty flag is set). -/
theorem C10_lazy_cached_basis_witness :
    (RT.camWitness.moveTo ⟨1, 2, 3⟩).viewMatrix = RT.camWitness.viewMatrix ∧
      (RT.camWitness.rotateX 1).viewMatrix = RT.camWitness.viewMatrix ∧
      (RT.camWitness.rotateY 1).viewMatrix = RT.camWitness.viewMatrix ∧
      (RT.camWitness.setFOV 2).viewMatrix = RT.camWitness.viewMatrix ∧
      (RT.camWitness.setAspect 3).viewMatrix = RT.camWitness.viewMatrix ∧
      (RT.camWitness.moveTo ⟨1, 2, 3⟩).getForward = RT.camWitness.getForward ∧
      (RT.camWitness.rotateX 1).getForward = RT.camWitness.getForward ∧
      RT.camWitness.getShaderData.position = RT.camWitness.position ∧
      RT.camWitness.getShaderData.forward =
        (RT.camWitness.target.sub RT.camWitness.position).normalize ∧
      RT.camWitness.getShaderData.right =
        (((RT.camWitness.target.sub RT.camWitness.position).normalize).cross
          RT.camWitness.up).normalize ∧
      RT.camWitness.getShaderData.up =
        ((((RT.camWitness.target.sub RT.camWitness.position).normalize).cross
          RT.camWitness.up).normalize).cross
          ((RT.camWitness.target.sub RT.camWitness.position).normalize) :=
  C10_lazy_cached_basis RT.camWitness ⟨1, 2, 3⟩ 1 2 3
    (by intro h; simp [RT.camWitness] at h)
